import Mathlib

/-
Shallow embedding of the telephone package (src/index.js): a registry of
phone numbers with validation, a bounded event history, and observer
notification.  JavaScript semantics are modelled as follows: strings are
Lean `String`s, JS `Set`s of strings are duplicate-free insertion-ordered
lists, JS `Map`s are association lists with overwrite-on-set, `Date`
instants are naturals, promises are modelled by their settled outcome
(`Except String Unit`), and the cooperative async execution of `notify`
is modelled by the ordered trace of launched actions together with the
aggregate `Promise.all` result.  Thrown errors travel in an `Except`
channel; registry methods thread the `Telephone` state explicitly.
-/

/-- Character class of the JS regex `\s` (ECMAScript WhiteSpace and
LineTerminator code points). -/
def jsWhitespace (c : Char) : Bool :=
  decide ((9 ≤ c.toNat ∧ c.toNat ≤ 13) ∨ c.toNat = 32 ∨ c.toNat = 0xa0 ∨
    c.toNat = 0x1680 ∨ (0x2000 ≤ c.toNat ∧ c.toNat ≤ 0x200a) ∨
    c.toNat = 0x2028 ∨ c.toNat = 0x2029 ∨ c.toNat = 0x202f ∨
    c.toNat = 0x205f ∨ c.toNat = 0x3000 ∨ c.toNat = 0xfeff)

/-- Character class `[\d\s-]` of the validation regex. -/
def isPhoneChar (c : Char) : Bool :=
  c.isDigit || jsWhitespace c || c == '-'

/-- Embeds the regex test of src/index.js line 66 (pattern: caret, plus
sign optional, then the class of digit, whitespace, hyphen repeated at
least 10 times, then dollar): an optional
leading plus sign, then at least 10 characters of the class `[\d\s-]`,
anchored at both ends. -/
def phoneRegexTest (s : String) : Bool :=
  match s.data with
  | '+' :: rest => decide (10 ≤ rest.length) && rest.all isPhoneChar
  | chars => decide (10 ≤ chars.length) && chars.all isPhoneChar

/-- Embeds the replace call of src/index.js line 70: delete every
whitespace character and every hyphen. -/
def normalizePhone (s : String) : String :=
  String.mk (s.data.filter (fun c => !(jsWhitespace c || c == '-')))

/-- Error values thrown by the code: `PhoneNumberError` from validation,
or a rethrown notification failure (the async rejection channel of
`dialPhoneNumber`). -/
inductive JsError where
  | phoneNumberError (message : String)
  | notificationError (message : String)
deriving DecidableEq, Repr

/-- Event kinds created by the code: `add`, `remove`, `dial`,
`observerAdded`, `observerRemoved`. -/
inductive EventKind where
  | add
  | remove
  | dial
  | observerAdded
  | observerRemoved
deriving DecidableEq, Repr

/-- Structure `PhoneEvent` (src/index.js lines 10-16).  `phoneNumber` holds the
observer id for observer-lifecycle events. -/
structure PhoneEvent where
  type : EventKind
  phoneNumber : String
  timestamp : Nat
deriving DecidableEq, Repr

/-- JS `Set.add` on an insertion-ordered duplicate-free list. -/
def setAdd {α : Type} [DecidableEq α] (l : List α) (x : α) : List α :=
  if x ∈ l then l else l ++ [x]

/-- JS `Map.set` on an association list: overwrite in place if the key is
present, otherwise append. -/
def mapSet {β : Type} (m : List (String × β)) (k : String) (v : β) :
    List (String × β) :=
  match m with
  | [] => [(k, v)]
  | (k2, v2) :: rest =>
      if k2 = k then (k, v) :: rest else (k2, v2) :: mapSet rest k v

/-- Structure `PhoneNumberObserver` (src/index.js lines 19-24): an id, a set of
subscribed type tags and a map from event type to custom handler.  A
handler is modelled by the settled outcome it produces on a given phone
number. -/
structure PhoneNumberObserver where
  id : String
  types : List String
  customHandlers : List (String × (String → Except String Unit))

/-- Method `addCustomNotification` (src/index.js lines 27-30): register the
handler for `type` and add `type` to the tag set. -/
def addCustomNotification (o : PhoneNumberObserver) (type : String)
    (handler : String → Except String Unit) : PhoneNumberObserver :=
  { o with customHandlers := mapSet o.customHandlers type handler,
           types := setAdd o.types type }

/-- A notification action launched by `notify`: the built-in simple log,
the built-in detailed log, or a custom handler. -/
inductive NotifyAction where
  | simple
  | detailed
  | custom (handler : String → Except String Unit)

/-- Embeds `Promise.all` on settled outcomes: resolves when every entry
resolved, otherwise rejects with the first rejection. -/
def promiseAll : List (Except String Unit) → Except String Unit
  | [] => Except.ok ()
  | Except.ok _ :: rest => promiseAll rest
  | Except.error e :: _ => Except.error e

/-- Method `PhoneNumberObserver.notify` (src/index.js lines 33-52).  The
`notifications` array is built by three conditional pushes — the built-in
simple action if the `simple` tag is subscribed, the built-in detailed
action if the `detailed` tag is subscribed, and the custom handler
registered for `eventType` if any — then the method awaits
`Promise.all`.  Returns the ordered trace of launched actions paired
with the settled outcome of each action (built-in console logs always
succeed), together with the aggregate result. -/
def notify (o : PhoneNumberObserver) (phoneNumber : String)
    (eventType : String) :
    List (NotifyAction × Except String Unit) × Except String Unit :=
  let n1 :=
    if "simple" ∈ o.types then [(NotifyAction.simple, Except.ok ())] else []
  let n2 := n1 ++
    (if "detailed" ∈ o.types then [(NotifyAction.detailed, Except.ok ())]
     else [])
  let n3 := n2 ++
    (match o.customHandlers.lookup eventType with
     | some h => [(NotifyAction.custom h, h phoneNumber)]
     | none => [])
  (n3, promiseAll (n3.map Prod.snd))

/-- The `.catch` attached per observer in `notifyObservers`
(src/index.js lines 167-169): a rejection is consumed by a console log
and the chained promise resolves. -/
def catchLog : Except String Unit → Except String Unit
  | Except.error _ => Except.ok ()
  | Except.ok _ => Except.ok ()

/-- Method `Telephone.notifyObservers` (src/index.js lines 165-172): map each
observer to `observer.notify(phoneNumber)` (default event type `dial`)
with a per-observer `.catch`, then await `Promise.all`.  Returns the
per-observer caught outcomes together with the aggregate result. -/
def notifyObservers (observers : List PhoneNumberObserver)
    (phoneNumber : String) :
    List (String × Except String Unit) × Except String Unit :=
  let results := observers.map
    (fun o => (o.id, catchLog (notify o phoneNumber "dial").2))
  (results, promiseAll (results.map Prod.snd))

/-- State of `Telephone` (src/index.js lines 56-62). -/
structure Telephone where
  phoneNumbers : List String
  observers : List PhoneNumberObserver
  eventHistory : List PhoneEvent
  maxHistorySize : Nat

/-- The `Telephone` constructor (src/index.js lines 57-62).  It declares
no parameters; following JS call semantics any arguments passed are
ignored.  `maxHistorySize` is always 100. -/
def Telephone.construct (_args : List Nat) : Telephone :=
  { phoneNumbers := [], observers := [], eventHistory := [],
    maxHistorySize := 100 }

/-- Method `Telephone.validatePhoneNumber` (src/index.js lines 65-71):
throw a `PhoneNumberError` whose message is `Invalid phone number
format` unless the regex matches, otherwise return the normalized
number. -/
def validatePhoneNumber (phoneNumber : String) : Except JsError String :=
  if phoneRegexTest phoneNumber then Except.ok (normalizePhone phoneNumber)
  else Except.error (JsError.phoneNumberError "Invalid phone number format")

/-- The list update performed by `Telephone.addToHistory`
(src/index.js lines 74-79): push, then `shift` the oldest entry if the
length exceeds the capacity. -/
def histAppend (cap : Nat) (h : List PhoneEvent) (e : PhoneEvent) :
    List PhoneEvent :=
  let h2 := h ++ [e]
  if cap < h2.length then h2.tail else h2

/-- Method `Telephone.addToHistory` on the threaded state. -/
def addToHistory (t : Telephone) (e : PhoneEvent) : Telephone :=
  { t with eventHistory := histAppend t.maxHistorySize t.eventHistory e }

/-- The filter configuration accepted by `getEventHistory`; an absent
field is `none`. -/
structure EventFilter where
  type : Option EventKind := none
  startDate : Option Nat := none
  endDate : Option Nat := none

/-- Method `Telephone.getEventHistory` (src/index.js lines 82-96): copy the
history, then apply the type, startDate and endDate filters in turn
when present. -/
def getEventHistory (t : Telephone) (f : EventFilter) : List PhoneEvent :=
  let h1 := t.eventHistory
  let h2 := match f.type with
    | some k => h1.filter (fun e => decide (e.type = k))
    | none => h1
  let h3 := match f.startDate with
    | some d => h2.filter (fun e => decide (d ≤ e.timestamp))
    | none => h2
  match f.endDate with
  | some d => h3.filter (fun e => decide (e.timestamp ≤ d))
  | none => h3

/-- Method `Telephone.addPhoneNumber` (src/index.js lines 99-110): validate
(rethrowing a failure after a log), insert the normalized number into
the set, append an `add` event, return the normalized number. -/
def addPhoneNumber (t : Telephone) (phoneNumber : String) (now : Nat) :
    Except JsError String × Telephone :=
  match validatePhoneNumber phoneNumber with
  | Except.error e => (Except.error e, t)
  | Except.ok n =>
      (Except.ok n,
       addToHistory { t with phoneNumbers := setAdd t.phoneNumbers n }
         (PhoneEvent.mk EventKind.add n now))

/-- Method `Telephone.removePhoneNumber` (src/index.js lines 113-127): validate
(rethrowing a failure), delete the normalized number from the set; if it
was present append a `remove` event and return true, else return
false. -/
def removePhoneNumber (t : Telephone) (phoneNumber : String) (now : Nat) :
    Except JsError Bool × Telephone :=
  match validatePhoneNumber phoneNumber with
  | Except.error e => (Except.error e, t)
  | Except.ok n =>
      if n ∈ t.phoneNumbers then
        (Except.ok true,
         addToHistory
           { t with phoneNumbers := t.phoneNumbers.filter (fun x => x ≠ n) }
           (PhoneEvent.mk EventKind.remove n now))
      else (Except.ok false, t)

/-- Method `Telephone.dialPhoneNumber` (src/index.js lines 130-145): validate
(rethrowing a failure); if the normalized number is known, append a
`dial` event, await `notifyObservers` (a rejection of the aggregate
would be caught and rethrown) and return true; otherwise return false
with no event. -/
def dialPhoneNumber (t : Telephone) (phoneNumber : String) (now : Nat) :
    Except JsError Bool × Telephone :=
  match validatePhoneNumber phoneNumber with
  | Except.error e => (Except.error e, t)
  | Except.ok n =>
      if n ∈ t.phoneNumbers then
        let t2 := addToHistory t (PhoneEvent.mk EventKind.dial n now)
        match (notifyObservers t2.observers n).2 with
        | Except.error m => (Except.error (JsError.notificationError m), t2)
        | Except.ok _ => (Except.ok true, t2)
      else (Except.ok false, t)

/-- Spec-side statement of the validation format: an optional leading
plus sign followed by a body of at least 10 characters, each a digit, a
whitespace character, or a hyphen, spanning the whole string. -/
def specAccepts (s : String) : Prop :=
  ∃ body : List Char, (s.data = body ∨ s.data = '+' :: body) ∧
    10 ≤ body.length ∧
    ∀ c ∈ body, (c.isDigit = true ∨ jsWhitespace c = true ∨ c = '-')

/-- Spec-side statement of normalization: the input with every
whitespace character and every hyphen removed. -/
def specStrip (s : String) : String :=
  String.mk (s.data.filter (fun c => !(jsWhitespace c || c == '-')))

/-- The format the claim literally states: an optional leading plus sign
followed by at least 10 characters, each a digit, a space, or a
hyphen. -/
def claimedAccepts (s : String) : Bool :=
  match s.data with
  | '+' :: rest =>
      decide (10 ≤ rest.length) &&
        rest.all (fun c => c.isDigit || c == ' ' || c == '-')
  | chars =>
      decide (10 ≤ chars.length) &&
        chars.all (fun c => c.isDigit || c == ' ' || c == '-')

/-- A concrete always-succeeding custom handler, used for witnesses. -/
def demoHandlerOk : String → Except String Unit := fun _ => Except.ok ()

/-- A concrete always-failing custom handler, used for witnesses. -/
def demoHandlerFail : String → Except String Unit := fun _ => Except.error "boom"

/-- The example observer of the spec: subscribed only to `simple`,
with a custom `emergency` handler. -/
def demoObserver : PhoneNumberObserver :=
  addCustomNotification (PhoneNumberObserver.mk "obs2" ["simple"] [])
    "emergency" demoHandlerOk

/-- An observer subscribed to both built-in tags whose custom
`emergency` handler fails. -/
def demoFailObserver : PhoneNumberObserver :=
  addCustomNotification
    (PhoneNumberObserver.mk "o1" ["simple", "detailed"] [])
    "emergency" demoHandlerFail

/-- An observer whose custom `dial` handler fails, so that its `notify`
rejects during dial fan-out. -/
def demoDialFailObserver : PhoneNumberObserver :=
  addCustomNotification (PhoneNumberObserver.mk "obs1" ["simple"] [])
    "dial" demoHandlerFail

/-- A registry knowing one number, observed by an observer whose notify
rejects. -/
def demoDialState : Telephone :=
  { phoneNumbers := ["1234567890"], observers := [demoDialFailObserver],
    eventHistory := [], maxHistorySize := 100 }

/-- A registry with a small concrete event history, used for the filter
witness. -/
def demoHistState : Telephone :=
  { phoneNumbers := [], observers := [],
    eventHistory :=
      [PhoneEvent.mk EventKind.add "111" 1,
       PhoneEvent.mk EventKind.dial "111" 2,
       PhoneEvent.mk EventKind.dial "222" 9],
    maxHistorySize := 100 }

/-- Spec-side statement of the history filter: the conjunction of the
provided constraints, each absent option imposing none. -/
def eventMatchB (f : EventFilter) (e : PhoneEvent) : Bool :=
  (match f.type with | some k => decide (e.type = k) | none => true) &&
  (match f.startDate with | some d => decide (d ≤ e.timestamp) | none => true) &&
  (match f.endDate with | some d => decide (e.timestamp ≤ d) | none => true)

theorem histAppend_length_le (cap : Nat) (h : List PhoneEvent) (e : PhoneEvent)
    (hh : h.length ≤ cap) : (histAppend cap h e).length ≤ cap := by
  simp only [histAppend]
  split
  next hc =>
    simp only [List.length_tail, List.length_append, List.length_cons,
      List.length_nil] at *
    omega
  next hc =>
    simp only [List.length_append, List.length_cons, List.length_nil] at *
    omega

theorem histAppend_eq_drop (cap : Nat) (h : List PhoneEvent) (e : PhoneEvent)
    (hh : h.length ≤ cap) :
    histAppend cap h e = (h ++ [e]).drop (h.length + 1 - cap) := by
  simp only [histAppend]
  split
  next hc =>
    simp only [List.length_append, List.length_singleton] at hc
    have h1 : h.length + 1 - cap = 1 := by omega
    rw [h1, List.drop_one]
  next hc =>
    simp only [List.length_append, List.length_singleton] at hc
    have h0 : h.length + 1 - cap = 0 := by omega
    rw [h0, List.drop_zero]

theorem foldl_histAppend_eq (cap : Nat) :
    ∀ (es h : List PhoneEvent), h.length ≤ cap →
      List.foldl (histAppend cap) h es =
        (h ++ es).drop (h.length + es.length - cap)
  | [], h, hh => by
      simp [Nat.sub_eq_zero_of_le hh]
  | e :: es, h, hh => by
      rw [List.foldl_cons,
        foldl_histAppend_eq cap es (histAppend cap h e)
          (histAppend_length_le cap h e hh),
        histAppend_eq_drop cap h e hh]
      have hle : h.length + 1 - cap ≤ (h ++ [e]).length := by
        simp only [List.length_append, List.length_singleton]; omega
      rw [← List.drop_append_of_le_length hle, List.drop_drop]
      congr 1
      · simp only [List.length_drop, List.length_append, List.length_singleton,
          List.length_cons, List.length_nil]
        omega
      · simp

/-- C2: starting from an empty log, appending any sequence of events
through the `addToHistory` update keeps the history at the 100 most
recent events in insertion order: the result is always exactly the
suffix of the appended sequence past its first `length - 100` entries
(the whole sequence while at most 100 events have been appended), so
the length never exceeds 100 and each append past capacity evicts the
single oldest entry. -/
theorem eventLog_bounded_fifo (es : List PhoneEvent) :
    List.foldl (histAppend 100) [] es = es.drop (es.length - 100) ∧
    (List.foldl (histAppend 100) [] es).length ≤ 100 ∧
    (∀ t e, (addToHistory t e).eventHistory =
      histAppend t.maxHistorySize t.eventHistory e) := by
  have h := foldl_histAppend_eq 100 es [] (by simp)
  simp only [List.nil_append, List.length_nil, Nat.zero_add] at h
  refine ⟨h, ?_, fun t e => rfl⟩
  rw [h, List.length_drop]
  omega

/-- C7: `getEventHistory` is a pure query of the threaded state: it
returns exactly the events of the history that satisfy the conjunction
of the provided filter options, in their original insertion order, and
each option means what the claim says (type equality, timestamp at
least startDate, timestamp at most endDate, no constraint when
absent). -/
theorem getEventHistory_filter_spec (t : Telephone) (f : EventFilter) :
    getEventHistory t f = t.eventHistory.filter (fun e => eventMatchB f e) ∧
    ∀ e : PhoneEvent, eventMatchB f e = true ↔
      ((∀ k, f.type = some k → e.type = k) ∧
       (∀ d, f.startDate = some d → d ≤ e.timestamp) ∧
       (∀ d, f.endDate = some d → e.timestamp ≤ d)) := by
  obtain ⟨ty, sd, ed⟩ := f
  constructor
  · rcases ty with _ | k <;> rcases sd with _ | d1 <;> rcases ed with _ | d2 <;>
      simp only [getEventHistory, eventMatchB, List.filter_filter,
        Bool.and_true, Bool.true_and, List.filter_true] <;>
      first
        | rfl
        | (apply List.filter_congr; intro x hx;
           simp [Bool.and_comm, Bool.and_left_comm, Bool.and_assoc])
  · intro e
    rcases ty with _ | k <;> rcases sd with _ | d1 <;> rcases ed with _ | d2 <;>
      simp [eventMatchB, and_assoc]

/-- C9 counterexample: the claim says the constructor accepts an
optional history-capacity override, but the source constructor declares
no parameters; passing an override of 50 still yields capacity 100. -/
theorem construct_override_refuted :
    (Telephone.construct [50]).maxHistorySize = 100 ∧
    (Telephone.construct [50]).maxHistorySize ≠ 50 :=
  ⟨rfl, by decide⟩

/-- C9 (amended): the `Telephone` constructor accepts no configuration
parameters (any arguments passed are ignored, per JS call semantics),
and the event-history capacity is always 100. -/
theorem construct_ignores_args (args : List Nat) :
    Telephone.construct args = Telephone.construct [] ∧
    (Telephone.construct args).maxHistorySize = 100 :=
  ⟨rfl, rfl⟩

/-- C10: a string of ten hyphens contains no digit, yet validation
accepts it and normalizes it to the empty string; `addPhoneNumber` on a
fresh registry then succeeds and stores the empty string in the number
set.  A mix of spaces and hyphens is likewise accepted. -/
theorem digitless_number_accepted :
    (∀ c ∈ "----------".data, c.isDigit = false) ∧
    validatePhoneNumber "----------" = Except.ok "" ∧
    validatePhoneNumber "  --  --  " = Except.ok "" ∧
    (addPhoneNumber (Telephone.construct []) "----------" 0).1 =
      Except.ok "" ∧
    (addPhoneNumber (Telephone.construct []) "----------" 0).2.phoneNumbers =
      [""] :=
  ⟨by decide, rfl, rfl, rfl, rfl⟩

theorem isPhoneChar_iff (c : Char) : isPhoneChar c = true ↔
    (c.isDigit = true ∨ jsWhitespace c = true ∨ c = '-') := by
  simp [isPhoneChar, or_assoc]

theorem phoneRegexTest_iff (s : String) :
    phoneRegexTest s = true ↔ specAccepts s := by
  constructor
  · intro h
    unfold phoneRegexTest at h
    split at h
    next x rest heq =>
      rw [Bool.and_eq_true, decide_eq_true_eq, List.all_eq_true] at h
      exact ⟨rest, Or.inr heq, h.1, fun c hc => (isPhoneChar_iff c).1 (h.2 c hc)⟩
    next x hne =>
      rw [Bool.and_eq_true, decide_eq_true_eq, List.all_eq_true] at h
      exact ⟨s.data, Or.inl rfl, h.1, fun c hc => (isPhoneChar_iff c).1 (h.2 c hc)⟩
  · rintro ⟨body, hb | hb, hlen, hmem⟩
    · unfold phoneRegexTest
      split
      next x rest heq =>
        have hplus : '+' ∈ body := by
          rw [← hb, heq]; exact List.mem_cons_self _ _
        rcases hmem '+' hplus with h1 | h1 | h1
        · exact absurd h1 (by decide)
        · exact absurd h1 (by decide)
        · exact absurd h1 (by decide)
      next x hne =>
        rw [hb, Bool.and_eq_true, decide_eq_true_eq, List.all_eq_true]
        exact ⟨hlen, fun c hc => (isPhoneChar_iff c).2 (hmem c hc)⟩
    · unfold phoneRegexTest
      split
      next x rest heq =>
        rw [hb, List.cons.injEq] at heq
        obtain ⟨-, hrest⟩ := heq
        subst hrest
        rw [Bool.and_eq_true, decide_eq_true_eq, List.all_eq_true]
        exact ⟨hlen, fun c hc => (isPhoneChar_iff c).2 (hmem c hc)⟩
      next x hne =>
        exact (hne body hb).elim

/-- C1 (amended): for every string, validation succeeds exactly when the
whole string is an optional leading plus sign followed by at least 10
characters, each a digit, a whitespace character (the JS regex class \s,
not only the space character), or a hyphen; on success it returns the
string with all whitespace and hyphens removed (leading plus preserved),
and every other string fails with the PhoneNumberError message Invalid
phone number format. -/
theorem validate_format_spec (s : String) :
    (∀ r : String, validatePhoneNumber s = Except.ok r ↔
      (specAccepts s ∧ r = specStrip s)) ∧
    (¬ specAccepts s →
      validatePhoneNumber s =
        Except.error (JsError.phoneNumberError "Invalid phone number format")) := by
  have hiff := phoneRegexTest_iff s
  constructor
  · intro r
    unfold validatePhoneNumber
    by_cases h : phoneRegexTest s = true
    · rw [if_pos h]
      constructor
      · intro he
        rw [Except.ok.injEq] at he
        exact ⟨hiff.1 h, he.symm⟩
      · rintro ⟨-, hr⟩
        rw [Except.ok.injEq]
        exact hr.symm
    · rw [if_neg h]
      constructor
      · intro he
        exact Except.noConfusion he
      · rintro ⟨ha, -⟩
        exact absurd (hiff.2 ha) h
  · intro hna
    unfold validatePhoneNumber
    rw [if_neg (fun hh => hna (hiff.1 hh))]

/-- C1 counterexample: a string of ten tab characters is accepted by the
source validator (the JS class \s matches any whitespace character) and
normalizes to the empty string, while the format stated by the claim
(digit, space, or hyphen only) rejects it. -/
theorem validate_space_only_refuted :
    validatePhoneNumber "\t\t\t\t\t\t\t\t\t\t" = Except.ok "" ∧
    claimedAccepts "\t\t\t\t\t\t\t\t\t\t" = false :=
  ⟨rfl, by decide⟩

theorem validate_format_spec_witness :
    validatePhoneNumber "invalid" =
      Except.error (JsError.phoneNumberError "Invalid phone number format") ∧
    validatePhoneNumber "+1-234-567-8900" = Except.ok "+12345678900" := by
  constructor
  · exact (validate_format_spec "invalid").2
      (fun hs => absurd ((phoneRegexTest_iff "invalid").2 hs) (by decide))
  · exact ((validate_format_spec "+1-234-567-8900").1 "+12345678900").2
      ⟨⟨"1-234-567-8900".data, Or.inr (by decide), by decide, by decide⟩,
       by decide⟩

/-- C8 counterexample: validation accepts ten hyphens and returns the
empty string as the normalized result, but validating that normalized
result fails, refuting the claim that validation always succeeds on its
own output. -/
theorem validate_renormalize_refuted :
    validatePhoneNumber "----------" = Except.ok "" ∧
    validatePhoneNumber "" =
      Except.error (JsError.phoneNumberError "Invalid phone number format") :=
  ⟨rfl, rfl⟩

/-- C8 (amended): normalization is idempotent — for every string
accepted by validation, the normalized result normalizes to itself — and
re-validating the normalized result returns it unchanged provided it
still passes the format test (it can fail the test when stripping
dropped the length below 10 characters). -/
theorem normalizePhone_idempotent (s n : String)
    (hv : validatePhoneNumber s = Except.ok n) :
    normalizePhone n = n ∧
    (phoneRegexTest n = true → validatePhoneNumber n = Except.ok n) := by
  have hn : n = normalizePhone s := by
    unfold validatePhoneNumber at hv
    by_cases h : phoneRegexTest s = true
    · rw [if_pos h, Except.ok.injEq] at hv
      exact hv.symm
    · rw [if_neg h] at hv
      exact Except.noConfusion hv
  have hid : normalizePhone (normalizePhone s) = normalizePhone s := by
    unfold normalizePhone
    simp [List.filter_filter]
  subst hn
  refine ⟨hid, fun ht => ?_⟩
  unfold validatePhoneNumber
  rw [if_pos ht, hid]

theorem normalizePhone_idempotent_witness :
    normalizePhone "1234567890" = "1234567890" ∧
    validatePhoneNumber "1234567890" = Except.ok "1234567890" := by
  have h := normalizePhone_idempotent "123-456-7890" "1234567890" (by rfl)
  exact ⟨h.1, h.2 (by decide)⟩

/-- C6: on any string failing the format constraint, addPhoneNumber,
removePhoneNumber and dialPhoneNumber all fail with the PhoneNumberError
message Invalid phone number format (the error propagates in the
result channel, not swallowed) and return the registry state completely
unchanged: no event appended, the number set, observer set and history
untouched, and no observer notified. -/
theorem invalid_input_no_side_effects (t : Telephone) (s : String)
    (now : Nat) (hv : phoneRegexTest s = false) :
    addPhoneNumber t s now =
      (Except.error (JsError.phoneNumberError "Invalid phone number format"),
       t) ∧
    removePhoneNumber t s now =
      (Except.error (JsError.phoneNumberError "Invalid phone number format"),
       t) ∧
    dialPhoneNumber t s now =
      (Except.error (JsError.phoneNumberError "Invalid phone number format"),
       t) := by
  have h : validatePhoneNumber s =
      Except.error (JsError.phoneNumberError "Invalid phone number format") := by
    unfold validatePhoneNumber
    rw [if_neg (by simp [hv])]
  refine ⟨?_, ?_, ?_⟩ <;>
    simp [addPhoneNumber, removePhoneNumber, dialPhoneNumber, h]

theorem invalid_input_no_side_effects_witness :
    addPhoneNumber (Telephone.construct []) "invalid" 0 =
      (Except.error (JsError.phoneNumberError "Invalid phone number format"),
       Telephone.construct []) ∧
    dialPhoneNumber (Telephone.construct []) "invalid" 0 =
      (Except.error (JsError.phoneNumberError "Invalid phone number format"),
       Telephone.construct []) := by
  have h := invalid_input_no_side_effects (Telephone.construct []) "invalid" 0
    (by decide)
  exact ⟨h.1, h.2.2⟩

theorem promiseAll_ok_iff (l : List (Except String Unit)) :
    promiseAll l = Except.ok () ↔ ∀ r ∈ l, r = Except.ok () := by
  induction l with
  | nil => simp [promiseAll]
  | cons r rest ih =>
    cases r with
    | ok u =>
      cases u
      simp only [promiseAll, List.mem_cons, ih]
      constructor
      · intro hall r2 hr2
        rcases hr2 with rfl | hr2
        · rfl
        · exact hall r2 hr2
      · intro hall r2 hr2
        exact hall r2 (Or.inr hr2)
    | error e =>
      simp only [promiseAll]
      constructor
      · intro h
        exact Except.noConfusion h
      · intro hall
        exact absurd (hall (Except.error e) (List.mem_cons_self _ _))
          (fun h => Except.noConfusion h)

theorem promiseAll_error_iff (l : List (Except String Unit)) (e : String) :
    promiseAll l = Except.error e ↔
      ∃ l1 l2, l = l1 ++ Except.error e :: l2 ∧ ∀ r ∈ l1, r = Except.ok () := by
  induction l with
  | nil =>
    simp only [promiseAll]
    constructor
    · intro h
      exact Except.noConfusion h
    · rintro ⟨l1, l2, hsplit, -⟩
      exact absurd hsplit.symm (List.append_ne_nil_of_right_ne_nil l1 (by simp))
  | cons r rest ih =>
    cases r with
    | ok u =>
      cases u
      rw [show promiseAll (Except.ok () :: rest) = promiseAll rest from rfl, ih]
      constructor
      · rintro ⟨l1, l2, hsplit, hok⟩
        refine ⟨Except.ok () :: l1, l2, by rw [List.cons_append, hsplit], ?_⟩
        intro r2 hr2
        rcases List.mem_cons.1 hr2 with rfl | hr2
        · rfl
        · exact hok r2 hr2
      · rintro ⟨l1, l2, hsplit, hok⟩
        cases l1 with
        | nil =>
          rw [List.nil_append] at hsplit
          exact absurd (List.head_eq_of_cons_eq hsplit)
            (fun h => Except.noConfusion h)
        | cons r1 l1t =>
          rw [List.cons_append, List.cons.injEq] at hsplit
          exact ⟨l1t, l2, hsplit.2,
            fun r2 hr2 => hok r2 (List.mem_cons_of_mem r1 hr2)⟩
    | error e2 =>
      rw [show promiseAll (Except.error e2 :: rest) = Except.error e2 from rfl]
      constructor
      · intro h
        rw [Except.error.injEq] at h
        exact ⟨[], rest, by rw [h, List.nil_append], by simp⟩
      · rintro ⟨l1, l2, hsplit, hok⟩
        cases l1 with
        | nil =>
          rw [List.nil_append, List.cons.injEq] at hsplit
          exact hsplit.1
        | cons r1 l1t =>
          rw [List.cons_append, List.cons.injEq] at hsplit
          exact absurd (hsplit.1.trans
              (hok r1 (List.mem_cons_self r1 l1t)))
            (fun h => Except.noConfusion h)

/-- C4: for every observer, phone number and event type, `notify`
launches the built-in simple and detailed actions exactly when the
corresponding tag is subscribed — regardless of the event type — and
launches a custom handler exactly when one is registered for that event
type; in particular, the example observer of the spec (subscribed only
to `simple`, with a custom `emergency` handler) fires the simple action
and the custom handler on an `emergency` notify, and only the simple
action on a `dial` notify. -/
theorem notify_action_selection (o : PhoneNumberObserver) (pn et : String) :
    (NotifyAction.simple ∈ (notify o pn et).1.map Prod.fst ↔
      "simple" ∈ o.types) ∧
    (NotifyAction.detailed ∈ (notify o pn et).1.map Prod.fst ↔
      "detailed" ∈ o.types) ∧
    (∀ h, o.customHandlers.lookup et = some h →
      NotifyAction.custom h ∈ (notify o pn et).1.map Prod.fst) ∧
    (o.customHandlers.lookup et = none →
      ∀ h, NotifyAction.custom h ∉ (notify o pn et).1.map Prod.fst) ∧
    (∀ h pn2,
      (notify (addCustomNotification
          (PhoneNumberObserver.mk "obs" ["simple"] []) "emergency" h)
        pn2 "emergency").1.map Prod.fst =
        [NotifyAction.simple, NotifyAction.custom h] ∧
      (notify (addCustomNotification
          (PhoneNumberObserver.mk "obs" ["simple"] []) "emergency" h)
        pn2 "dial").1.map Prod.fst = [NotifyAction.simple]) := by
  refine ⟨?_, ?_, ?_, ?_, ?_⟩
  · by_cases hs : "simple" ∈ o.types <;>
      by_cases hd : "detailed" ∈ o.types <;>
      cases hlk : o.customHandlers.lookup et <;>
      simp [notify, hs, hd, hlk]
  · by_cases hs : "simple" ∈ o.types <;>
      by_cases hd : "detailed" ∈ o.types <;>
      cases hlk : o.customHandlers.lookup et <;>
      simp [notify, hs, hd, hlk]
  · intro h hlk
    simp [notify, hlk]
  · intro hlk h
    by_cases hs : "simple" ∈ o.types <;>
      by_cases hd : "detailed" ∈ o.types <;>
      simp [notify, hs, hd, hlk]
  · intro h pn2
    exact ⟨rfl, rfl⟩

theorem notify_action_selection_witness :
    NotifyAction.custom demoHandlerOk ∈
      (notify demoObserver "5550001111" "emergency").1.map Prod.fst ∧
    NotifyAction.simple ∈
      (notify demoObserver "5550001111" "dial").1.map Prod.fst ∧
    (NotifyAction.detailed ∈
      (notify demoObserver "5550001111" "dial").1.map Prod.fst ↔
      "detailed" ∈ demoObserver.types) := by
  have h1 := notify_action_selection demoObserver "5550001111" "emergency"
  have h2 := notify_action_selection demoObserver "5550001111" "dial"
  exact ⟨h1.2.2.1 demoHandlerOk rfl,
    h2.1.mpr (by decide),
    h2.2.1⟩

/-- C5: for every observer and `notify` call, every launched action has
a completed outcome in the trace even when some handler fails — the
successful outcomes of the built-in actions and the failure of a failing
custom handler are all recorded — the aggregate result resolves exactly
when the outcome of every launched action resolved, and it rejects with `e`
exactly when `e` is the first failure among the completed outcomes (so
the failure is surfaced only over the fully settled trace). -/
theorem notify_awaits_all (o : PhoneNumberObserver) (pn et : String) :
    ((notify o pn et).2 = Except.ok () ↔
      ∀ p ∈ (notify o pn et).1, p.2 = Except.ok ()) ∧
    (∀ e, (notify o pn et).2 = Except.error e ↔
      ∃ l1 l2, (notify o pn et).1.map Prod.snd =
          l1 ++ Except.error e :: l2 ∧
        ∀ r ∈ l1, r = Except.ok ()) ∧
    (∀ h e, o.customHandlers.lookup et = some h → h pn = Except.error e →
      (("simple" ∈ o.types →
          (NotifyAction.simple, Except.ok ()) ∈ (notify o pn et).1) ∧
       ("detailed" ∈ o.types →
          (NotifyAction.detailed, Except.ok ()) ∈ (notify o pn et).1) ∧
       (NotifyAction.custom h, Except.error e) ∈ (notify o pn et).1)) := by
  have h2 : (notify o pn et).2 =
      promiseAll ((notify o pn et).1.map Prod.snd) := rfl
  refine ⟨?_, ?_, ?_⟩
  · rw [h2, promiseAll_ok_iff]
    constructor
    · intro hall p hp
      exact hall p.2 (List.mem_map_of_mem Prod.snd hp)
    · intro hall r hr
      obtain ⟨p, hp, rfl⟩ := List.mem_map.1 hr
      exact hall p hp
  · intro e
    rw [h2, promiseAll_error_iff]
  · intro h e hlk hfail
    refine ⟨fun hs => ?_, fun hd => ?_, ?_⟩
    · simp [notify, hs, hlk]
    · simp [notify, hd, hlk]
    · simp [notify, hlk, hfail]

theorem notify_awaits_all_witness :
    (NotifyAction.simple, Except.ok ()) ∈
      (notify demoFailObserver "5550001111" "emergency").1 ∧
    (NotifyAction.detailed, Except.ok ()) ∈
      (notify demoFailObserver "5550001111" "emergency").1 ∧
    (NotifyAction.custom demoHandlerFail, Except.error "boom") ∈
      (notify demoFailObserver "5550001111" "emergency").1 ∧
    (notify demoFailObserver "5550001111" "emergency").2 =
      Except.error "boom" := by
  have h := (notify_awaits_all demoFailObserver "5550001111" "emergency").2.2
    demoHandlerFail "boom" rfl rfl
  refine ⟨h.1 (by decide), h.2.1 (by decide), h.2.2, ?_⟩
  exact ((notify_awaits_all demoFailObserver "5550001111" "emergency").2.1
      "boom").mpr
    ⟨[Except.ok (), Except.ok ()], [], rfl, by simp⟩

theorem catchLog_eq_ok (r : Except String Unit) :
    catchLog r = Except.ok () := by
  cases r with
  | ok u => cases u; rfl
  | error e => rfl

theorem notifyObservers_ok (obs : List PhoneNumberObserver) (pn : String) :
    (notifyObservers obs pn).2 = Except.ok () := by
  simp only [notifyObservers]
  refine (promiseAll_ok_iff _).2 ?_
  intro r hr
  simp only [List.map_map, List.mem_map, Function.comp] at hr
  obtain ⟨o, ho, rfl⟩ := hr
  exact catchLog_eq_ok _

/-- C3: for every registry state (any observers, including ones whose
notify rejects — `notifyObservers` catches the failure of each observer, so
the aggregate always resolves) and every string passing validation,
`dialPhoneNumber` returns true and appends exactly one `dial` event
(the only state change, made before the fan-out) when the normalized
number is known, and returns false leaving the state completely
unchanged when it is not. -/
theorem dialPhoneNumber_spec (t : Telephone) (s : String) (now : Nat)
    (hv : phoneRegexTest s = true) :
    (normalizePhone s ∈ t.phoneNumbers →
      dialPhoneNumber t s now =
        (Except.ok true,
         addToHistory t
           (PhoneEvent.mk EventKind.dial (normalizePhone s) now))) ∧
    (normalizePhone s ∉ t.phoneNumbers →
      dialPhoneNumber t s now = (Except.ok false, t)) := by
  have hval : validatePhoneNumber s = Except.ok (normalizePhone s) := by
    unfold validatePhoneNumber
    rw [if_pos hv]
  constructor
  · intro hmem
    simp [dialPhoneNumber, hval, hmem, notifyObservers_ok]
  · intro hmem
    simp [dialPhoneNumber, hval, hmem]

theorem dialPhoneNumber_spec_witness :
    (notify demoDialFailObserver "1234567890" "dial").2 =
      Except.error "boom" ∧
    dialPhoneNumber demoDialState "1234567890" 7 =
      (Except.ok true,
       addToHistory demoDialState
         (PhoneEvent.mk EventKind.dial "1234567890" 7)) ∧
    dialPhoneNumber demoDialState "5550001111" 7 =
      (Except.ok false, demoDialState) := by
  refine ⟨rfl, ?_, ?_⟩
  · exact (dialPhoneNumber_spec demoDialState "1234567890" 7 (by decide)).1
      (by decide)
  · exact (dialPhoneNumber_spec demoDialState "5550001111" 7 (by decide)).2
      (by decide)

theorem getEventHistory_filter_spec_witness :
    getEventHistory demoHistState
      { type := some EventKind.dial, startDate := some 2, endDate := some 5 } =
      [PhoneEvent.mk EventKind.dial "111" 2] ∧
    eventMatchB
      { type := some EventKind.dial, startDate := some 2, endDate := some 5 }
      (PhoneEvent.mk EventKind.dial "111" 2) = true := by
  have h := getEventHistory_filter_spec demoHistState
    { type := some EventKind.dial, startDate := some 2, endDate := some 5 }
  refine ⟨h.1.trans (by rfl), ?_⟩
  exact (h.2 (PhoneEvent.mk EventKind.dial "111" 2)).mpr
    (by simp)
